import Mathlib

/-! The rdstail command line (`main.go`).

A shallow embedding of the command-line front end of `rdstail`: the three
command actions `watch`, `papertrail` and `tail`, the helpers they share
(`fie`, `parseDB`, `parseRate`, `setupRDS`) and the interrupt listener
`signalListen`.

The commands are sequential programs with observable effects (writes to
standard output, process exit, goroutine start, calls into the `rdstail`
core package).  They are embedded in a small state-and-exit monad `Go` whose
state records the effects in order.  Everything outside `main.go` that a
command consults (the duration parser, the hostname lookup, the results of
the core operations) is a field of `Env`.
-/

namespace Rdstail

/-! ## Values -/

/-- A non-nil Go `error`, identified with the text its `Error()` method yields. -/
structure GoError where
  msg : String
  deriving DecidableEq, Repr

/-- The Go call `errors.New(text)`. -/
def errorsNew (text : String) : GoError := ⟨text⟩

/-- A Go `time.Duration`: a count of nanoseconds. -/
abbrev Duration := Int

/-- The Go conversion `int64(n)`: wrap to 64 bits, two's complement. -/
def int64 (n : Int) : Int := (n + 2 ^ 63) % 2 ^ 64 - 2 ^ 63

/-- The values of Go's `int` (at most 64 bits wide). -/
def isGoInt (n : Int) : Prop := -(2 ^ 63) ≤ n ∧ n < 2 ^ 63

instance (n : Int) : Decidable (isGoInt n) := by unfold isGoInt; infer_instance

/-- The flag context `*cli.Context` handed to an action: the resolved value of
every flag, by name. -/
structure Context where
  strings : String → String
  ints : String → Int

/-- The lookup `c.String(name)`. -/
def Context.getString (c : Context) (name : String) : String := c.strings name

/-- The lookup `c.Int(name)`. -/
def Context.getInt (c : Context) (name : String) : Int := c.ints name

/-- Default of the `hostname` flag of the `papertrail` command in `main`. -/
def hostnameDefault : String := "os.Hostname()"

/-- The RDS client `*rds.RDS`, identified with the configuration it is built from. -/
structure RDS where
  region : String
  maxRetries : Int
  deriving DecidableEq, Repr

/-- Arguments of a call `rdstail.Watch(r, db, rate, prefixPattern, callback, stop)`
(the callback apart). -/
structure WatchCall where
  r : RDS
  db : String
  rate : Duration
  prefixPattern : String
  stop : Nat
  deriving DecidableEq, Repr

/-- Arguments of a call
`rdstail.FeedPapertrail(r, db, rate, papertrailHost, appName, hostname, stop)`. -/
structure FeedCall where
  r : RDS
  db : String
  rate : Duration
  papertrailHost : String
  appName : String
  hostname : String
  stop : Nat
  deriving DecidableEq, Repr

/-- Arguments of a call `rdstail.Tail(r, db, numLines, prefixPattern)`. -/
structure TailCall where
  r : RDS
  db : String
  numLines : Int
  prefixPattern : String
  deriving DecidableEq, Repr

/-- What lies outside `main.go`. -/
structure Env where
  /-- The Go call `time.ParseDuration(s)`: a duration and an error. -/
  parseDuration : String → Duration × Option GoError
  /-- The Go call `os.Hostname()`: a name and an error. -/
  osHostname : String × Option GoError
  /-- The texts `rdstail.Watch` hands to its callback, in order. -/
  watchTexts : WatchCall → List String
  /-- The error `rdstail.Watch` returns. -/
  watchResult : WatchCall → Option GoError
  /-- The error `rdstail.FeedPapertrail` returns. -/
  feedResult : FeedCall → Option GoError
  /-- What `rdstail.Tail` writes to standard output before it returns. -/
  tailOutput : TailCall → String
  /-- The error `rdstail.Tail` returns. -/
  tailResult : TailCall → Option GoError

/-! ## Effects -/

/-- An observable effect of a command. -/
inductive Event where
  | stdout (text : String)
  | makeChan (ch : Nat)
  | goSignalListen (stop : Nat)
  | callWatch (a : WatchCall)
  | callFeedPapertrail (a : FeedCall)
  | callTail (a : TailCall)
  deriving DecidableEq, Repr

/-- The effects so far, oldest first, and the number of channels made. -/
structure World where
  trace : List Event
  chans : Nat
  deriving DecidableEq, Repr

/-- A computation either goes on with a value or has ended the process
through `os.Exit`. -/
inductive Res (α : Type) where
  | ok (a : α) (w : World)
  | exited (code : Nat) (w : World)
  deriving DecidableEq, Repr

/-- The world a computation ends in. -/
def Res.world {α : Type} : Res α → World
  | .ok _ w => w
  | .exited _ w => w

/-- Sequential Go code. -/
def Go (α : Type) : Type := World → Res α

/-- Return a value. -/
def Go.pure {α : Type} (a : α) : Go α := fun w => .ok a w

/-- Run `m`, then `f` on its value unless the process has exited. -/
def Go.bind {α β : Type} (m : Go α) (f : α → Go β) : Go β := fun w =>
  match m w with
  | .ok a w1 => f a w1
  | .exited code w1 => .exited code w1

instance : Monad Go where
  pure := Go.pure
  bind := Go.bind

/-- Record one effect. -/
def emit (e : Event) : Go Unit := fun w => .ok () { w with trace := w.trace ++ [e] }

/-- The Go call `fmt.Print(s)` with one string operand: writes `s`. -/
def fmtPrint (s : String) : Go Unit := emit (.stdout s)

/-- The Go call `fmt.Println(s)`: writes `s` and a line break. -/
def fmtPrintln (s : String) : Go Unit := emit (.stdout (s ++ "\n"))

/-- The Go call `os.Exit(code)`. -/
def osExit {α : Type} (code : Nat) : Go α := fun w => .exited code w

/-- The Go expression `make(chan struct{})`: a fresh channel. -/
def makeChan : Go Nat := fun w =>
  .ok w.chans { trace := w.trace ++ [.makeChan w.chans], chans := w.chans + 1 }

/-- Run a command in the initial world. -/
def exec {α : Type} (m : Go α) : Res α := m ⟨[], 0⟩

/-- What was written to standard output. -/
def stdoutOf : List Event → String
  | [] => ""
  | .stdout s :: es => s ++ stdoutOf es
  | _ :: es => stdoutOf es

/-- Whether an effect is a call of a core operation. -/
def Event.isCore : Event → Bool
  | .callWatch _ => true
  | .callFeedPapertrail _ => true
  | .callTail _ => true
  | _ => false

/-- Whether an effect makes a channel. -/
def Event.isMakeChan : Event → Bool
  | .makeChan _ => true
  | _ => false

/-! ## The code of `main.go` -/

/-- The function `fie`: print a non-nil error and exit with status 1. -/
def fie (e : Option GoError) : Go Unit :=
  match e with
  | some err => do
      fmtPrintln err.msg
      osExit 1
  | none => pure ()

/-- The function `setupRDS`. -/
def setupRDS (c : Context) : Go RDS := do
  let region := c.getString "region"
  let maxRetries := c.getInt "max-retries"
  return { region := region, maxRetries := maxRetries }

/-- The function `parseRate`. -/
def parseRate (env : Env) (c : Context) : Go Duration := do
  let (rate, err) := env.parseDuration (c.getString "rate")
  fie err
  return rate

/-- The function `parseDB`. -/
def parseDB (c : Context) : Go String := do
  let db := c.getString "instance"
  if db = "" then
    fie (some (errorsNew "-instance required"))
  return db

/-- The callback `watch` hands to `rdstail.Watch`:
`func(lines string) error { fmt.Print(lines); return nil }`. -/
def consoleSink (lines : String) : Go (Option GoError) := do
  fmtPrint lines
  return none

/-- Hand each text to the callback, in order. -/
def dispatchAll (callback : String → Go (Option GoError)) : List String → Go Unit
  | [] => pure ()
  | t :: ts => do
      let _ ← callback t
      dispatchAll callback ts

/-- The call `rdstail.Watch(r, db, rate, prefixPattern, callback, stop)`: the
core is outside `main.go`; it hands the callback the texts `env.watchTexts`
and returns `env.watchResult`. -/
def rdstailWatch (env : Env) (a : WatchCall)
    (callback : String → Go (Option GoError)) : Go (Option GoError) := do
  emit (.callWatch a)
  dispatchAll callback (env.watchTexts a)
  return env.watchResult a

/-- The call `rdstail.FeedPapertrail(...)`. -/
def rdstailFeedPapertrail (env : Env) (a : FeedCall) : Go (Option GoError) := do
  emit (.callFeedPapertrail a)
  return env.feedResult a

/-- The call `rdstail.Tail(...)`.  It is handed no callback and returns only
an error: what it shows of the log file it writes to standard output itself,
`env.tailOutput`. -/
def rdstailTail (env : Env) (a : TailCall) : Go (Option GoError) := do
  emit (.callTail a)
  fmtPrint (env.tailOutput a)
  return env.tailResult a

/-- The statement `go signalListen(stop)`. -/
def goSignalListen (stop : Nat) : Go Unit := emit (.goSignalListen stop)

/-- The function `watch`.  Its last two statements, `defer fie(err)` and
`return nil`, run `fie(err)` as the function returns. -/
def watch (env : Env) (c : Context) : Go (Option GoError) := do
  let r ← setupRDS c
  let db ← parseDB c
  let rate ← parseRate env c
  let prefixPattern := c.getString "prefix"
  fmtPrintln prefixPattern
  let stop ← makeChan
  goSignalListen stop
  let err ← rdstailWatch env ⟨r, db, rate, prefixPattern, stop⟩ consoleSink
  fie err
  return none

/-- The function `papertrail`.  Each `defer fie(..)` is followed at once by
`return nil`, so the deferred call runs there. -/
def papertrail (env : Env) (c : Context) : Go (Option GoError) := do
  let r ← setupRDS c
  let db ← parseDB c
  let rate ← parseRate env c
  let papertrailHost := c.getString "papertrail"
  if papertrailHost = "" then
    fie (some (errorsNew "-papertrail required"))
    return none
  else
    let appName := c.getString "app"
    let hostname := c.getString "hostname"
    if hostname = "os.Hostname()" then
      let (_, err) := env.osHostname
      fie err
      return none
    else
      let stop ← makeChan
      goSignalListen stop
      let err ← rdstailFeedPapertrail env ⟨r, db, rate, papertrailHost, appName, hostname, stop⟩
      fie err
      return none

/-- The function `tail`. -/
def tail (env : Env) (c : Context) : Go (Option GoError) := do
  let r ← setupRDS c
  let db ← parseDB c
  let numLines := int64 (c.getInt "lines")
  let prefixPattern := c.getString "prefix"
  let err ← rdstailTail env ⟨r, db, numLines, prefixPattern⟩
  fie err
  return none

/-- The commands `main` registers in `app.Commands`. -/
inductive Command where
  | papertrail
  | watch
  | tail
  deriving DecidableEq, Repr

/-- The `Action` of each command in `app.Commands`. -/
def Command.action : Command → Env → Context → Go (Option GoError)
  | .papertrail => Rdstail.papertrail
  | .watch => Rdstail.watch
  | .tail => Rdstail.tail

/-! ## The interrupt listener -/

/-- The signals `signalListen` asks `signal.Notify` for. -/
inductive Signal where
  | SIGTERM
  | SIGINT
  deriving DecidableEq, Repr

/-- Where the goroutine started by `go signalListen(stop)` stands: the
statement of `signalListen` it runs next, or the receive it waits in. -/
inductive ListenPC where
  /-- Next is `c := make(chan os.Signal)`. -/
  | atMake
  /-- Next is `signal.Notify(c, syscall.SIGTERM, syscall.SIGINT)`. -/
  | atNotify
  /-- Next is the first `<-c`; the goroutine does not wait in it yet. -/
  | atFirstRecv
  /-- Waiting in the first `<-c`. -/
  | inFirstRecv
  /-- The first `<-c` has received; next is `close(stop)`. -/
  | atClose
  /-- Next is the second `<-c`; the goroutine does not wait in it yet. -/
  | atSecondRecv
  /-- Waiting in the second `<-c`. -/
  | inSecondRecv
  /-- The second `<-c` has received; next is `log.Panic(..)`. -/
  | atPanic
  /-- After `log.Panic(msg)`: the panic, which nothing recovers, ends the program. -/
  | panicked (msg : String)
  /-- The program was ended by the default action of a signal. -/
  | killed (sig : Signal)
  deriving DecidableEq, Repr

/-- The listener goroutine and the channel `stop` it was given: where it
stands, whether `stop` is closed, how many times `close(stop)` ran, and how
many interrupts were lost. -/
structure Listener where
  pc : ListenPC
  stopClosed : Bool
  closes : Nat
  dropped : Nat
  deriving DecidableEq, Repr

/-- The listener right after `go signalListen(stop)`, `stop` fresh from `make`:
no statement of `signalListen` has run. -/
def signalListenInit : Listener :=
  { pc := .atMake, stopClosed := false, closes := 0, dropped := 0 }

/-- The goroutine runs its next statement; waiting in a receive, it stays. -/
def Listener.run (l : Listener) : Listener :=
  match l.pc with
  | .atMake => { l with pc := .atNotify }
  | .atNotify => { l with pc := .atFirstRecv }
  | .atFirstRecv => { l with pc := .inFirstRecv }
  | .inFirstRecv => l
  | .atClose => { l with pc := .atSecondRecv, stopClosed := true, closes := l.closes + 1 }
  | .atSecondRecv => { l with pc := .inSecondRecv }
  | .inSecondRecv => l
  | .atPanic => { l with pc := .panicked "Aborting on second signal" }
  | .panicked _ => l
  | .killed _ => l

/-- The process gets `SIGTERM` or `SIGINT`.  Before `signal.Notify` has run the
signal has its default action, which ends the program.  After it, package
`signal` sends on `c` without blocking, and `c` is made with no buffer: the
signal is received only if the goroutine waits in a `<-c`, and is lost
otherwise. -/
def Listener.interrupt (l : Listener) (sig : Signal) : Listener :=
  match l.pc with
  | .atMake => { l with pc := .killed sig }
  | .atNotify => { l with pc := .killed sig }
  | .atFirstRecv => { l with dropped := l.dropped + 1 }
  | .inFirstRecv => { l with pc := .atClose }
  | .atClose => { l with dropped := l.dropped + 1 }
  | .atSecondRecv => { l with dropped := l.dropped + 1 }
  | .inSecondRecv => { l with pc := .atPanic }
  | .atPanic => { l with dropped := l.dropped + 1 }
  | .panicked _ => l
  | .killed _ => l

/-- What the scheduler or the outside world does next: an interrupt arrives,
or the listener goroutine runs. -/
inductive SchedEvent where
  | interrupt (sig : Signal)
  | run
  deriving DecidableEq, Repr

/-- One event on the listener. -/
def signalListenStep (l : Listener) : SchedEvent → Listener
  | .interrupt sig => l.interrupt sig
  | .run => l.run

/-- The function `signalListen` under a schedule of events, from its start. -/
def signalListen (evs : List SchedEvent) : Listener :=
  evs.foldl signalListenStep signalListenInit

/-- The message of the panic that ended the listener, if one did. -/
def Listener.aborted (l : Listener) : Option String :=
  match l.pc with
  | .panicked msg => some msg
  | _ => none

/-- How many times `close(stop)` has run when the listener stands at `pc`. -/
def closesAt : ListenPC → Nat
  | .atSecondRecv => 1
  | .inSecondRecv => 1
  | .atPanic => 1
  | .panicked _ => 1
  | _ => 0

/-- The least number of interrupts after which the listener can stand at `pc`. -/
def interruptsNeeded : ListenPC → Nat
  | .atMake => 0
  | .atNotify => 0
  | .atFirstRecv => 0
  | .inFirstRecv => 0
  | .atClose => 1
  | .atSecondRecv => 1
  | .inSecondRecv => 1
  | .atPanic => 2
  | .panicked _ => 2
  | .killed _ => 1

/-- The number of interrupts in a schedule. -/
def interruptsIn : List SchedEvent → Nat
  | [] => 0
  | .interrupt _ :: evs => interruptsIn evs + 1
  | .run :: evs => interruptsIn evs

/-! ## Views of a run -/

/-- The effects of a run. -/
def Res.trace {α : Type} (r : Res α) : List Event := r.world.trace

/-- The exit status, when the run ended in `os.Exit`. -/
def Res.exitCode {α : Type} : Res α → Option Nat
  | .ok _ _ => none
  | .exited code _ => some code

/-- The value returned, when the run returned. -/
def Res.returned {α : Type} : Res α → Option α
  | .ok a _ => some a
  | .exited _ _ => none

/-- The calls of core operations, in order. -/
def coreCalls (t : List Event) : List Event := t.filter Event.isCore

/-- The channels on which a listener was started, in order. -/
def listenChans : List Event → List Nat
  | [] => []
  | .goSignalListen ch :: es => ch :: listenChans es
  | _ :: es => listenChans es

/-- The stop channels passed to the core, in order. -/
def coreStopChans : List Event → List Nat
  | [] => []
  | .callWatch a :: es => a.stop :: coreStopChans es
  | .callFeedPapertrail a :: es => a.stop :: coreStopChans es
  | _ :: es => coreStopChans es

/-- Two contexts that agree on every flag but the string flag `name`. -/
def Context.agreeOff (name : String) (c1 c2 : Context) : Prop :=
  c1.ints = c2.ints ∧ ∀ k, k ≠ name → c1.strings k = c2.strings k

/-- The call `watch` makes when validation passes. -/
def watchCall (env : Env) (c : Context) : WatchCall :=
  { r := ⟨c.getString "region", c.getInt "max-retries"⟩
    db := c.getString "instance"
    rate := (env.parseDuration (c.getString "rate")).1
    prefixPattern := c.getString "prefix"
    stop := 0 }

/-- The call `papertrail` makes when it reaches the core. -/
def feedCall (env : Env) (c : Context) : FeedCall :=
  { r := ⟨c.getString "region", c.getInt "max-retries"⟩
    db := c.getString "instance"
    rate := (env.parseDuration (c.getString "rate")).1
    papertrailHost := c.getString "papertrail"
    appName := c.getString "app"
    hostname := c.getString "hostname"
    stop := 0 }

/-- The call `tail` makes when validation passes. -/
def tailCall (c : Context) : TailCall :=
  { r := ⟨c.getString "region", c.getInt "max-retries"⟩
    db := c.getString "instance"
    numLines := int64 (c.getInt "lines")
    prefixPattern := c.getString "prefix" }

/-- A run that fails fast: it prints `msg` on a line of its own as its whole
output, exits with status 1, calls no core operation, makes no stop channel
and starts no listener. -/
def failsFastWith {α : Type} (r : Res α) (msg : String) : Prop :=
  r.exitCode = some 1 ∧ stdoutOf r.trace = msg ++ "\n" ∧ coreCalls r.trace = []
    ∧ listenChans r.trace = [] ∧ r.trace.filter Event.isMakeChan = []

/-! ## Sample inputs -/

/-- An environment: `3s` is the one rate that parses, the host is `myhost`,
the core hands over two texts and returns `nil`. -/
def sampleEnv : Env where
  parseDuration := fun s =>
    if s = "3s" then (3000000000, none) else (0, some ⟨"time: invalid duration"⟩)
  osHostname := ("myhost", none)
  watchTexts := fun _ => ["one\n", "two\n"]
  watchResult := fun _ => none
  feedResult := fun _ => none
  tailOutput := fun _ => "last line\n"
  tailResult := fun _ => none

/-- An environment like `sampleEnv` whose core operations all fail. -/
def failingEnv : Env :=
  { sampleEnv with
    watchResult := fun _ => some ⟨"watch failed"⟩
    feedResult := fun _ => some ⟨"feed failed"⟩
    tailResult := fun _ => some ⟨"tail failed"⟩ }

/-- A flag context from the values of the flags that vary; the others are at
the defaults `main` gives them. -/
def mkContext (inst pat rate collector host : String) (lines : Int) : Context where
  strings := fun k =>
    if k = "instance" then inst
    else if k = "prefix" then pat
    else if k = "rate" then rate
    else if k = "papertrail" then collector
    else if k = "hostname" then host
    else if k = "app" then "rdstail"
    else if k = "region" then "us-east-1"
    else ""
  ints := fun k => if k = "lines" then lines else if k = "max-retries" then 10 else 0

/-! ## Lemmas on the embedding -/

theorem bind_eq {α β : Type} (m : Go α) (f : α → Go β) (w : World) :
    (m >>= f) w = match m w with
      | .ok a w1 => f a w1
      | .exited code w1 => .exited code w1 := rfl

theorem pure_eq {α : Type} (a : α) (w : World) : (pure a : Go α) w = .ok a w := rfl

theorem fie_none (w : World) : fie none w = .ok () w := rfl

theorem fie_some (e : GoError) (w : World) :
    fie (some e) w = .exited 1 { w with trace := w.trace ++ [.stdout (e.msg ++ "\n")] } := rfl

theorem parseDB_empty (c : Context) (w : World) (h : c.getString "instance" = "") :
    parseDB c w = .exited 1 { w with trace := w.trace ++ [.stdout "-instance required\n"] } := by
  simp [parseDB, h, bind_eq, fie_some, errorsNew]

theorem parseDB_ok (c : Context) (w : World) (h : c.getString "instance" ≠ "") :
    parseDB c w = .ok (c.getString "instance") w := by
  simp [parseDB, h, bind_eq, pure_eq]

theorem dispatchAll_consoleSink (texts : List String) (w : World) :
    dispatchAll consoleSink texts w
      = .ok () { w with trace := w.trace ++ texts.map Event.stdout } := by
  induction texts generalizing w with
  | nil => simp [dispatchAll, pure_eq]
  | cons t ts ih =>
    simp [dispatchAll, bind_eq, consoleSink, fmtPrint, emit, pure_eq, ih]

/-- Every run of `watch`, case by case. -/
theorem watch_run (env : Env) (c : Context) :
    exec (watch env c) =
      if c.getString "instance" = "" then
        .exited 1 ⟨[.stdout "-instance required\n"], 0⟩
      else
        match (env.parseDuration (c.getString "rate")).2 with
        | some e => .exited 1 ⟨[.stdout (e.msg ++ "\n")], 0⟩
        | none =>
          match env.watchResult (watchCall env c) with
          | some e => .exited 1 ⟨[.stdout (c.getString "prefix" ++ "\n"), .makeChan 0,
              .goSignalListen 0, .callWatch (watchCall env c)]
              ++ (env.watchTexts (watchCall env c)).map Event.stdout
              ++ [.stdout (e.msg ++ "\n")], 1⟩
          | none => .ok none ⟨[.stdout (c.getString "prefix" ++ "\n"), .makeChan 0,
              .goSignalListen 0, .callWatch (watchCall env c)]
              ++ (env.watchTexts (watchCall env c)).map Event.stdout, 1⟩ := by
  by_cases h : c.getString "instance" = ""
  · simp [exec, watch, setupRDS, bind_eq, pure_eq, parseDB_empty, h]
  · rcases hr : env.parseDuration (c.getString "rate") with ⟨d, _ | e⟩
    · simp only [exec, watch, watchCall, setupRDS, bind_eq, pure_eq, parseDB_ok _ _ h, parseRate,
        hr, fie_none, fmtPrintln, emit, makeChan, goSignalListen, rdstailWatch,
        dispatchAll_consoleSink]
      cases hw : env.watchResult _ <;> simp [hw, fie_none, fie_some, h]
    · simp [exec, watch, setupRDS, bind_eq, pure_eq, parseDB_ok _ _ h, parseRate, hr,
        fie_some, h]

/-- Every run of `papertrail`, case by case. -/
theorem papertrail_run (env : Env) (c : Context) :
    exec (papertrail env c) =
      if c.getString "instance" = "" then
        .exited 1 ⟨[.stdout "-instance required\n"], 0⟩
      else
        match (env.parseDuration (c.getString "rate")).2 with
        | some e => .exited 1 ⟨[.stdout (e.msg ++ "\n")], 0⟩
        | none =>
          if c.getString "papertrail" = "" then
            .exited 1 ⟨[.stdout "-papertrail required\n"], 0⟩
          else if c.getString "hostname" = "os.Hostname()" then
            match env.osHostname.2 with
            | some e => .exited 1 ⟨[.stdout (e.msg ++ "\n")], 0⟩
            | none => .ok none ⟨[], 0⟩
          else
            match env.feedResult (feedCall env c) with
            | some e => .exited 1 ⟨[.makeChan 0, .goSignalListen 0,
                .callFeedPapertrail (feedCall env c), .stdout (e.msg ++ "\n")], 1⟩
            | none => .ok none ⟨[.makeChan 0, .goSignalListen 0,
                .callFeedPapertrail (feedCall env c)], 1⟩ := by
  by_cases h : c.getString "instance" = ""
  · simp [exec, papertrail, setupRDS, bind_eq, pure_eq, parseDB_empty, h]
  · rcases hr : env.parseDuration (c.getString "rate") with ⟨d, _ | e⟩
    · by_cases hp : c.getString "papertrail" = ""
      · simp [exec, papertrail, setupRDS, bind_eq, pure_eq, parseDB_ok _ _ h, parseRate, hr,
          fie_none, fie_some, h, hp, errorsNew]
      · by_cases hh : c.getString "hostname" = "os.Hostname()"
        · rcases ho : env.osHostname with ⟨n, _ | e⟩
          · simp [exec, papertrail, setupRDS, bind_eq, pure_eq, parseDB_ok _ _ h, parseRate, hr,
              fie_none, h, hp, hh, ho]
          · simp [exec, papertrail, setupRDS, bind_eq, pure_eq, parseDB_ok _ _ h, parseRate, hr,
              fie_none, fie_some, h, hp, hh, ho]
        · simp only [exec, papertrail, feedCall, setupRDS, bind_eq, pure_eq, parseDB_ok _ _ h,
            parseRate, hr, fie_none, emit, makeChan, goSignalListen, rdstailFeedPapertrail,
            hp, hh, h, if_false]
          cases hw : env.feedResult _ <;> simp [hw, fie_none, fie_some]
    · simp [exec, papertrail, setupRDS, bind_eq, pure_eq, parseDB_ok _ _ h, parseRate, hr,
        fie_some, h]

/-- Every run of `tail`, case by case. -/
theorem tail_run (env : Env) (c : Context) :
    exec (tail env c) =
      if c.getString "instance" = "" then
        .exited 1 ⟨[.stdout "-instance required\n"], 0⟩
      else
        match env.tailResult (tailCall c) with
        | some e => .exited 1 ⟨[.callTail (tailCall c), .stdout (env.tailOutput (tailCall c)),
            .stdout (e.msg ++ "\n")], 0⟩
        | none => .ok none ⟨[.callTail (tailCall c),
            .stdout (env.tailOutput (tailCall c))], 0⟩ := by
  by_cases h : c.getString "instance" = ""
  · simp [exec, tail, setupRDS, bind_eq, pure_eq, parseDB_empty, h]
  · simp only [exec, tail, tailCall, setupRDS, bind_eq, pure_eq, parseDB_ok _ _ h, emit,
      fmtPrint, rdstailTail]
    cases hw : env.tailResult _ <;> simp [hw, fie_none, fie_some, h]

theorem stdoutOf_append (t1 t2 : List Event) :
    stdoutOf (t1 ++ t2) = stdoutOf t1 ++ stdoutOf t2 := by
  induction t1 with
  | nil => simp [stdoutOf]
  | cons e es ih => cases e <;> simp [stdoutOf, ih, String.append_assoc]

theorem coreCalls_map_stdout (texts : List String) :
    coreCalls (texts.map Event.stdout) = [] := by
  induction texts with
  | nil => rfl
  | cons t ts ih => simp [coreCalls, Event.isCore]

theorem coreCalls_append (t1 t2 : List Event) :
    coreCalls (t1 ++ t2) = coreCalls t1 ++ coreCalls t2 := by
  simp [coreCalls]

theorem listenChans_append (t1 t2 : List Event) :
    listenChans (t1 ++ t2) = listenChans t1 ++ listenChans t2 := by
  induction t1 with
  | nil => simp [listenChans]
  | cons e es ih => cases e <;> simp [listenChans, ih]

theorem listenChans_map_stdout (texts : List String) :
    listenChans (texts.map Event.stdout) = [] := by
  induction texts with
  | nil => rfl
  | cons t ts ih => simpa [listenChans] using ih

theorem coreStopChans_append (t1 t2 : List Event) :
    coreStopChans (t1 ++ t2) = coreStopChans t1 ++ coreStopChans t2 := by
  induction t1 with
  | nil => simp [coreStopChans]
  | cons e es ih => cases e <;> simp [coreStopChans, ih]

theorem coreStopChans_map_stdout (texts : List String) :
    coreStopChans (texts.map Event.stdout) = [] := by
  induction texts with
  | nil => rfl
  | cons t ts ih => simpa [coreStopChans] using ih

theorem failsFastWith_exited (msg : String) :
    failsFastWith (Res.exited 1 ⟨[.stdout (msg ++ "\n")], 0⟩ : Res (Option GoError)) msg := by
  simp [failsFastWith, Res.exitCode, Res.trace, Res.world, stdoutOf, coreCalls, listenChans,
    Event.isCore, Event.isMakeChan]

theorem signalListen_append (evs more : List SchedEvent) :
    signalListen (evs ++ more) = more.foldl signalListenStep (signalListen evs) := by
  simp [signalListen, List.foldl_append]

theorem foldl_run_inFirstRecv (b : Bool) (k d n : Nat) :
    (List.replicate n SchedEvent.run).foldl signalListenStep ⟨.inFirstRecv, b, k, d⟩
      = ⟨.inFirstRecv, b, k, d⟩ := by
  induction n with
  | zero => rfl
  | succ n ih => simpa [List.replicate, List.foldl, signalListenStep, Listener.run] using ih

theorem foldl_run_inSecondRecv (b : Bool) (k d n : Nat) :
    (List.replicate n SchedEvent.run).foldl signalListenStep ⟨.inSecondRecv, b, k, d⟩
      = ⟨.inSecondRecv, b, k, d⟩ := by
  induction n with
  | zero => rfl
  | succ n ih => simpa [List.replicate, List.foldl, signalListenStep, Listener.run] using ih

theorem signalListenStep_closes (l : Listener) (e : SchedEvent)
    (h : l.closes = closesAt l.pc) :
    (signalListenStep l e).closes = closesAt (signalListenStep l e).pc := by
  obtain ⟨pc, b, k, d⟩ := l
  simp only at h
  subst h
  cases e <;> cases pc <;> rfl

/-- Under every schedule `close(stop)` has run as often as the place of the
listener tells: never more than once. -/
theorem signalListen_closes (evs : List SchedEvent) :
    (signalListen evs).closes = closesAt (signalListen evs).pc
      ∧ (signalListen evs).closes ≤ 1 := by
  have key : ∀ (evs : List SchedEvent) (l : Listener), l.closes = closesAt l.pc →
      (evs.foldl signalListenStep l).closes = closesAt (evs.foldl signalListenStep l).pc := by
    intro evs
    induction evs with
    | nil => intro l h; exact h
    | cons e rest ih => intro l h; exact ih _ (signalListenStep_closes l e h)
  have h := key evs signalListenInit rfl
  refine ⟨h, ?_⟩
  rw [show (signalListen evs).closes = closesAt (signalListen evs).pc from h]
  cases (signalListen evs).pc <;> simp [closesAt]

theorem signalListenStep_interruptsNeeded (l : Listener) (e : SchedEvent) :
    interruptsNeeded (signalListenStep l e).pc ≤ interruptsNeeded l.pc + interruptsIn [e] := by
  obtain ⟨pc, b, k, d⟩ := l
  cases e <;> cases pc <;>
    simp [signalListenStep, Listener.run, Listener.interrupt, interruptsNeeded, interruptsIn]

/-- Under every schedule with fewer than two interrupts the listener has not
panicked. -/
theorem signalListen_aborted_none (evs : List SchedEvent) (h : interruptsIn evs < 2) :
    (signalListen evs).aborted = none := by
  have key : ∀ (evs : List SchedEvent) (l : Listener),
      interruptsNeeded (evs.foldl signalListenStep l).pc
        ≤ interruptsNeeded l.pc + interruptsIn evs := by
    intro evs
    induction evs with
    | nil => intro l; simp [interruptsIn]
    | cons e rest ih =>
      intro l
      have h1 := ih (signalListenStep l e)
      have h2 := signalListenStep_interruptsNeeded l e
      have h3 : interruptsIn (e :: rest) = interruptsIn [e] + interruptsIn rest := by
        cases e <;> simp only [interruptsIn] <;> omega
      simp only [List.foldl]
      omega
  have hk := key evs signalListenInit
  have h0 : interruptsNeeded signalListenInit.pc = 0 := rfl
  have hlt : interruptsNeeded (signalListen evs).pc < 2 := by
    unfold signalListen
    omega
  cases hpc : (signalListen evs).pc <;> simp [Listener.aborted, hpc]
  rw [hpc] at hlt
  simp [interruptsNeeded] at hlt

/-- When a continuous command reaches the core, it has started one listener,
on the stop channel it passes to the core. -/
theorem listener_started_on_core_stop (env : Env) (cw cp : Context)
    (hw1 : cw.getString "instance" ≠ "")
    (hw2 : (env.parseDuration (cw.getString "rate")).2 = none)
    (hp1 : cp.getString "instance" ≠ "")
    (hp2 : (env.parseDuration (cp.getString "rate")).2 = none)
    (hp3 : cp.getString "papertrail" ≠ "")
    (hp4 : cp.getString "hostname" ≠ "os.Hostname()") :
    listenChans (exec (watch env cw)).trace = [0]
      ∧ coreStopChans (exec (watch env cw)).trace = [0]
      ∧ listenChans (exec (papertrail env cp)).trace = [0]
      ∧ coreStopChans (exec (papertrail env cp)).trace = [0] := by
  rw [watch_run, papertrail_run]
  simp only [hw1, hw2, hp1, hp2, hp3, hp4, if_false]
  refine ⟨?_, ?_, ?_, ?_⟩
  · cases env.watchResult (watchCall env cw) <;>
      simp [Res.trace, Res.world, listenChans, listenChans_append, listenChans_map_stdout]
  · cases env.watchResult (watchCall env cw) <;>
      simp [Res.trace, Res.world, coreStopChans, coreStopChans_append,
        coreStopChans_map_stdout, watchCall]
  · cases env.feedResult (feedCall env cp) <;>
      simp [Res.trace, Res.world, listenChans]
  · cases env.feedResult (feedCall env cp) <;>
      simp [Res.trace, Res.world, coreStopChans, feedCall]

theorem foldl_append_eq_stdoutOf (texts : List String) (acc : String) :
    texts.foldl (fun r t => r ++ t) acc = acc ++ stdoutOf (texts.map Event.stdout) := by
  induction texts generalizing acc with
  | nil => simp [stdoutOf]
  | cons t ts ih => simp [List.foldl, stdoutOf, ih, String.append_assoc]

theorem stdoutOf_map_stdout (texts : List String) :
    stdoutOf (texts.map Event.stdout) = String.join texts := by
  simp [String.join, foldl_append_eq_stdoutOf]

theorem int64_of_isGoInt (n : Int) (h : isGoInt n) : int64 n = n := by
  unfold isGoInt at h
  unfold int64
  omega

theorem watch_coreCalls (env : Env) (c : Context) (h : c.getString "instance" ≠ "")
    (hr : (env.parseDuration (c.getString "rate")).2 = none) :
    coreCalls (exec (watch env c)).trace = [.callWatch (watchCall env c)] := by
  rw [watch_run]
  simp only [h, hr, if_false]
  cases env.watchResult (watchCall env c) <;>
    simp [Res.trace, Res.world, coreCalls_append, coreCalls_map_stdout] <;>
    simp [coreCalls, Event.isCore]

theorem papertrail_coreCalls (env : Env) (c : Context) (h : c.getString "instance" ≠ "")
    (hr : (env.parseDuration (c.getString "rate")).2 = none)
    (hp : c.getString "papertrail" ≠ "") (hh : c.getString "hostname" ≠ "os.Hostname()") :
    coreCalls (exec (papertrail env c)).trace = [.callFeedPapertrail (feedCall env c)] := by
  rw [papertrail_run]
  simp only [h, hr, hp, hh, if_false]
  cases env.feedResult (feedCall env c) <;>
    simp [Res.trace, Res.world, coreCalls, Event.isCore]

theorem tail_coreCalls (env : Env) (c : Context) (h : c.getString "instance" ≠ "") :
    coreCalls (exec (tail env c)).trace = [.callTail (tailCall c)] := by
  rw [tail_run]
  simp only [h, if_false]
  cases env.tailResult (tailCall c) <;>
    simp [Res.trace, Res.world, coreCalls, Event.isCore]

/-! ## The claims -/

/-- C1: a missing instance makes each of `watch`, `papertrail` and `tail` print
`-instance required` and exit with status 1; a missing collector address
(instance given, rate valid) makes `papertrail` print `-papertrail required`
and exit with status 1; in both cases no core operation is called and no
listener is started. -/
theorem missing_required_fails_fast (env : Env) (cmd : Command) (c1 c2 : Context)
    (h1 : c1.getString "instance" = "")
    (h2 : c2.getString "instance" ≠ "")
    (h3 : (env.parseDuration (c2.getString "rate")).2 = none)
    (h4 : c2.getString "papertrail" = "") :
    failsFastWith (exec (cmd.action env c1)) "-instance required"
      ∧ failsFastWith (exec (papertrail env c2)) "-papertrail required" := by
  constructor
  · have h := failsFastWith_exited "-instance required"
    cases cmd
    · simpa [Command.action, papertrail_run, h1] using h
    · simpa [Command.action, watch_run, h1] using h
    · simpa [Command.action, tail_run, h1] using h
  · have h := failsFastWith_exited "-papertrail required"
    simpa [papertrail_run, h2, h3, h4] using h

/-- C1 at concrete inputs: `watch` without an instance, `papertrail` without a
collector address. -/
theorem missing_required_fails_fast_witness :
    (mkContext "" "" "3s" "" hostnameDefault 20).getString "instance" = ""
      ∧ (mkContext "db" "" "3s" "" hostnameDefault 20).getString "instance" ≠ ""
      ∧ (sampleEnv.parseDuration
          ((mkContext "db" "" "3s" "" hostnameDefault 20).getString "rate")).2 = none
      ∧ (mkContext "db" "" "3s" "" hostnameDefault 20).getString "papertrail" = ""
      ∧ failsFastWith
          (exec (Command.watch.action sampleEnv (mkContext "" "" "3s" "" hostnameDefault 20)))
          "-instance required"
      ∧ failsFastWith
          (exec (papertrail sampleEnv (mkContext "db" "" "3s" "" hostnameDefault 20)))
          "-papertrail required" :=
  ⟨by decide, by decide, by decide, by decide,
    missing_required_fails_fast sampleEnv .watch
      (mkContext "" "" "3s" "" hostnameDefault 20)
      (mkContext "db" "" "3s" "" hostnameDefault 20)
      (by decide) (by decide) (by decide) (by decide)⟩

/-- C2: with an instance, a valid rate, a collector address and the hostname
flag at its default, and `os.Hostname()` answering `myhost` without error,
`papertrail` returns `nil` having made no stop channel, started no listener
and never called `rdstail.FeedPapertrail`. -/
theorem papertrail_default_hostname_returns_early :
    (mkContext "db" "" "3s" "logs.papertrailapp.com:8888" hostnameDefault 20).getString
        "hostname" = hostnameDefault
      ∧ sampleEnv.osHostname = ("myhost", none)
      ∧ exec (papertrail sampleEnv
          (mkContext "db" "" "3s" "logs.papertrailapp.com:8888" hostnameDefault 20))
        = .ok none ⟨[], 0⟩ := by
  decide

/-- C3 fails for `papertrail`: two contexts that pass validation and reach the
core, with boundary patterns `^x` and `^y`.  No reading of the arguments of
the `rdstail.FeedPapertrail` call yields the pattern of both: the two calls
are the same call. -/
theorem papertrail_call_carries_no_pattern :
    ¬ ∃ boundaryPattern : FeedCall → String,
        ∀ pat ∈ ["^x", "^y"], ∃ a,
          coreCalls (exec (papertrail sampleEnv
              (mkContext "db" pat "3s" "logs.papertrailapp.com:8888" "myhost" 20))).trace
            = [.callFeedPapertrail a]
          ∧ boundaryPattern a
            = (mkContext "db" pat "3s" "logs.papertrailapp.com:8888" "myhost" 20).getString
                "prefix" := by
  rintro ⟨f, hf⟩
  obtain ⟨a, ha, hfa⟩ := hf "^x" (by simp)
  obtain ⟨b, hb, hfb⟩ := hf "^y" (by simp)
  have hx : coreCalls (exec (papertrail sampleEnv
      (mkContext "db" "^x" "3s" "logs.papertrailapp.com:8888" "myhost" 20))).trace
      = [.callFeedPapertrail ⟨⟨"us-east-1", 10⟩, "db", 3000000000,
          "logs.papertrailapp.com:8888", "rdstail", "myhost", 0⟩] := by decide
  have hy : coreCalls (exec (papertrail sampleEnv
      (mkContext "db" "^y" "3s" "logs.papertrailapp.com:8888" "myhost" 20))).trace
      = [.callFeedPapertrail ⟨⟨"us-east-1", 10⟩, "db", 3000000000,
          "logs.papertrailapp.com:8888", "rdstail", "myhost", 0⟩] := by decide
  rw [hx] at ha
  rw [hy] at hb
  have hab : a = b := by
    have h1 := List.head_eq_of_cons_eq ha
    have h2 := List.head_eq_of_cons_eq hb
    injection h1 with h1
    injection h2 with h2
    rw [← h1, ← h2]
  have e1 : (mkContext "db" "^x" "3s" "logs.papertrailapp.com:8888" "myhost" 20).getString
      "prefix" = "^x" := by decide
  have e2 : (mkContext "db" "^y" "3s" "logs.papertrailapp.com:8888" "myhost" 20).getString
      "prefix" = "^y" := by decide
  rw [e1] at hfa
  rw [e2] at hfb
  rw [hab, hfb] at hfa
  exact absurd hfa (by decide)

/-- C3, amended: when validation passes, `watch` calls `rdstail.Watch` once,
with the duration parsed from the rate flag and the prefix flag as pattern;
when `papertrail` reaches the core (instance, valid rate, collector address,
hostname flag not at its default) it calls `rdstail.FeedPapertrail` once, with
the duration parsed from the rate flag, and its run is the same whatever the
prefix flag holds. -/
theorem continuous_modes_hand_rate_to_core (env : Env) (cw cp cq : Context)
    (hw1 : cw.getString "instance" ≠ "")
    (hw2 : (env.parseDuration (cw.getString "rate")).2 = none)
    (hp1 : cp.getString "instance" ≠ "")
    (hp2 : (env.parseDuration (cp.getString "rate")).2 = none)
    (hp3 : cp.getString "papertrail" ≠ "")
    (hp4 : cp.getString "hostname" ≠ "os.Hostname()")
    (hq : Context.agreeOff "prefix" cp cq) :
    (∃ a, coreCalls (exec (watch env cw)).trace = [.callWatch a]
        ∧ a.rate = (env.parseDuration (cw.getString "rate")).1
        ∧ a.prefixPattern = cw.getString "prefix")
      ∧ (∃ a, coreCalls (exec (papertrail env cp)).trace = [.callFeedPapertrail a]
        ∧ a.rate = (env.parseDuration (cp.getString "rate")).1)
      ∧ exec (papertrail env cq) = exec (papertrail env cp) := by
  refine ⟨⟨watchCall env cw, ?_, rfl, rfl⟩, ⟨feedCall env cp, ?_, rfl⟩, ?_⟩
  · rw [watch_run]
    simp only [hw1, hw2, if_false]
    cases env.watchResult (watchCall env cw) <;>
      simp [Res.trace, Res.world, coreCalls_append, coreCalls_map_stdout] <;>
      simp [coreCalls, Event.isCore]
  · rw [papertrail_run]
    simp only [hp1, hp2, hp3, hp4, if_false]
    cases env.feedResult (feedCall env cp) <;>
      simp [Res.trace, Res.world, coreCalls, Event.isCore]
  · have hs : ∀ k, k ≠ "prefix" → cq.getString k = cp.getString k :=
      fun k hk => (hq.2 k hk).symm
    have hi : ∀ k, cq.getInt k = cp.getInt k := fun k => by
      simp [Context.getInt, hq.1]
    have hcall : feedCall env cq = feedCall env cp := by
      simp [feedCall, hi, hs "region" (by decide), hs "instance" (by decide),
        hs "rate" (by decide), hs "papertrail" (by decide), hs "app" (by decide),
        hs "hostname" (by decide)]
    rw [papertrail_run, papertrail_run, hcall, hs "instance" (by decide),
      hs "rate" (by decide), hs "papertrail" (by decide), hs "hostname" (by decide)]

/-- C3, amended, at concrete inputs: `watch` with pattern `^x`, `papertrail`
with patterns `^x` and `^y`. -/
theorem continuous_modes_hand_rate_to_core_witness :
    (∃ a, coreCalls (exec (watch sampleEnv
          (mkContext "db" "^x" "3s" "" hostnameDefault 20))).trace = [.callWatch a]
        ∧ a.rate = (sampleEnv.parseDuration
            ((mkContext "db" "^x" "3s" "" hostnameDefault 20).getString "rate")).1
        ∧ a.prefixPattern = (mkContext "db" "^x" "3s" "" hostnameDefault 20).getString "prefix")
      ∧ (∃ a, coreCalls (exec (papertrail sampleEnv
          (mkContext "db" "^x" "3s" "logs.papertrailapp.com:8888" "myhost" 20))).trace
            = [.callFeedPapertrail a]
        ∧ a.rate = (sampleEnv.parseDuration
            ((mkContext "db" "^x" "3s" "logs.papertrailapp.com:8888" "myhost" 20).getString
              "rate")).1)
      ∧ exec (papertrail sampleEnv
          (mkContext "db" "^y" "3s" "logs.papertrailapp.com:8888" "myhost" 20))
        = exec (papertrail sampleEnv
          (mkContext "db" "^x" "3s" "logs.papertrailapp.com:8888" "myhost" 20)) :=
  continuous_modes_hand_rate_to_core sampleEnv
    (mkContext "db" "^x" "3s" "" hostnameDefault 20)
    (mkContext "db" "^x" "3s" "logs.papertrailapp.com:8888" "myhost" 20)
    (mkContext "db" "^y" "3s" "logs.papertrailapp.com:8888" "myhost" 20)
    (by decide) (by decide) (by decide) (by decide) (by decide) (by decide)
    ⟨rfl, fun k hk => by simp [mkContext, hk]⟩

/-- C4: the first interrupt does not always close the stop channel gracefully.
An interrupt that arrives before `signalListen` has run `signal.Notify` ends
the program; one that arrives after `signal.Notify` and before the goroutine
waits in the first `<-c` is lost, and `stop` stays open however long the
goroutine runs on.  Only an interrupt that finds the goroutine waiting closes
`stop`. -/
theorem first_interrupt_killed_or_lost (n : Nat) :
    signalListen [.interrupt .SIGINT] = ⟨.killed .SIGINT, false, 0, 0⟩
      ∧ signalListen ([.run, .run, .interrupt .SIGINT, .run] ++ List.replicate n .run)
          = ⟨.inFirstRecv, false, 0, 1⟩
      ∧ signalListen [.run, .run, .run, .interrupt .SIGINT, .run]
          = ⟨.atSecondRecv, true, 1, 0⟩ := by
  refine ⟨rfl, ?_, rfl⟩
  rw [signalListen_append]
  exact foldl_run_inFirstRecv false 0 1 n

/-- C5: the second interrupt does not always abort.  With the goroutine waiting
in the first `<-c`, two interrupts one right after the other: the first is
received, the second finds the goroutine not yet in the second `<-c` and is
lost; the goroutine closes `stop`, waits in the second `<-c` and never panics,
however long it runs on.  A second interrupt that finds it waiting there makes
it panic. -/
theorem second_interrupt_lost_back_to_back (n : Nat) :
    signalListen ([.run, .run, .run, .interrupt .SIGINT, .interrupt .SIGINT, .run, .run]
          ++ List.replicate n .run)
        = ⟨.inSecondRecv, true, 1, 1⟩
      ∧ (signalListen ([.run, .run, .run, .interrupt .SIGINT, .interrupt .SIGINT, .run, .run]
          ++ List.replicate n .run)).aborted = none
      ∧ (signalListen [.run, .run, .run, .interrupt .SIGINT, .run, .run,
          .interrupt .SIGINT, .run]).aborted = some "Aborting on second signal" := by
  have h : signalListen ([.run, .run, .run, .interrupt .SIGINT, .interrupt .SIGINT, .run, .run]
      ++ List.replicate n .run) = ⟨.inSecondRecv, true, 1, 1⟩ := by
    rw [signalListen_append]
    exact foldl_run_inSecondRecv true 1 1 n
  refine ⟨h, ?_, rfl⟩
  rw [h]
  rfl

/-- C6: each command that reaches the core calls its core operation once; when
that call returns an error the command prints the error last and exits with
status 1, and when it returns `nil` the command returns `nil` and does not
exit.  `watch` reaches the core with an instance and a valid rate,
`papertrail` with these, a collector address and a hostname flag not at its
default, `tail` with an instance. -/
theorem core_error_exits_with_status_one (env : Env) (cw cp ct : Context)
    (hw1 : cw.getString "instance" ≠ "")
    (hw2 : (env.parseDuration (cw.getString "rate")).2 = none)
    (hp1 : cp.getString "instance" ≠ "")
    (hp2 : (env.parseDuration (cp.getString "rate")).2 = none)
    (hp3 : cp.getString "papertrail" ≠ "")
    (hp4 : cp.getString "hostname" ≠ "os.Hostname()")
    (ht1 : ct.getString "instance" ≠ "") :
    (coreCalls (exec (watch env cw)).trace = [.callWatch (watchCall env cw)]
        ∧ (∀ e, env.watchResult (watchCall env cw) = some e →
            (exec (watch env cw)).exitCode = some 1
              ∧ (exec (watch env cw)).trace.getLast? = some (.stdout (e.msg ++ "\n")))
        ∧ (env.watchResult (watchCall env cw) = none →
            (exec (watch env cw)).returned = some none
              ∧ (exec (watch env cw)).exitCode = none))
      ∧ (coreCalls (exec (papertrail env cp)).trace = [.callFeedPapertrail (feedCall env cp)]
        ∧ (∀ e, env.feedResult (feedCall env cp) = some e →
            (exec (papertrail env cp)).exitCode = some 1
              ∧ (exec (papertrail env cp)).trace.getLast? = some (.stdout (e.msg ++ "\n")))
        ∧ (env.feedResult (feedCall env cp) = none →
            (exec (papertrail env cp)).returned = some none
              ∧ (exec (papertrail env cp)).exitCode = none))
      ∧ (coreCalls (exec (tail env ct)).trace = [.callTail (tailCall ct)]
        ∧ (∀ e, env.tailResult (tailCall ct) = some e →
            (exec (tail env ct)).exitCode = some 1
              ∧ (exec (tail env ct)).trace.getLast? = some (.stdout (e.msg ++ "\n")))
        ∧ (env.tailResult (tailCall ct) = none →
            (exec (tail env ct)).returned = some none
              ∧ (exec (tail env ct)).exitCode = none)) := by
  refine ⟨⟨watch_coreCalls env cw hw1 hw2, ?_, ?_⟩,
    ⟨papertrail_coreCalls env cp hp1 hp2 hp3 hp4, ?_, ?_⟩,
    ⟨tail_coreCalls env ct ht1, ?_, ?_⟩⟩
  · intro e he
    rw [watch_run]
    simp only [hw1, hw2, he, if_false]
    exact ⟨rfl, List.getLast?_concat _⟩
  · intro he
    rw [watch_run]
    simp only [hw1, hw2, he, if_false]
    exact ⟨rfl, rfl⟩
  · intro e he
    rw [papertrail_run]
    simp only [hp1, hp2, hp3, hp4, he, if_false]
    exact ⟨rfl, rfl⟩
  · intro he
    rw [papertrail_run]
    simp only [hp1, hp2, hp3, hp4, he, if_false]
    exact ⟨rfl, rfl⟩
  · intro e he
    rw [tail_run]
    simp only [ht1, he, if_false]
    exact ⟨rfl, rfl⟩
  · intro he
    rw [tail_run]
    simp only [ht1, he, if_false]
    exact ⟨rfl, rfl⟩

/-- C6 at concrete inputs, every core operation failing: each command has
called its core operation, printed the error last and exited with status 1. -/
theorem core_error_exits_with_status_one_witness :
    (coreCalls (exec (watch failingEnv (mkContext "db" "^x" "3s" "" hostnameDefault 20))).trace
          = [.callWatch ⟨⟨"us-east-1", 10⟩, "db", 3000000000, "^x", 0⟩]
        ∧ (exec (watch failingEnv
            (mkContext "db" "^x" "3s" "" hostnameDefault 20))).exitCode = some 1
        ∧ (exec (watch failingEnv
            (mkContext "db" "^x" "3s" "" hostnameDefault 20))).trace.getLast?
              = some (.stdout "watch failed\n"))
      ∧ (coreCalls (exec (papertrail failingEnv
            (mkContext "db" "" "3s" "logs.papertrailapp.com:8888" "myhost" 20))).trace
          = [.callFeedPapertrail ⟨⟨"us-east-1", 10⟩, "db", 3000000000,
              "logs.papertrailapp.com:8888", "rdstail", "myhost", 0⟩]
        ∧ (exec (papertrail failingEnv
            (mkContext "db" "" "3s" "logs.papertrailapp.com:8888" "myhost" 20))).exitCode
              = some 1
        ∧ (exec (papertrail failingEnv
            (mkContext "db" "" "3s" "logs.papertrailapp.com:8888" "myhost" 20))).trace.getLast?
              = some (.stdout "feed failed\n"))
      ∧ (coreCalls (exec (tail failingEnv (mkContext "db" "" "3s" "" hostnameDefault 20))).trace
          = [.callTail ⟨⟨"us-east-1", 10⟩, "db", 20, ""⟩]
        ∧ (exec (tail failingEnv
            (mkContext "db" "" "3s" "" hostnameDefault 20))).exitCode = some 1
        ∧ (exec (tail failingEnv
            (mkContext "db" "" "3s" "" hostnameDefault 20))).trace.getLast?
              = some (.stdout "tail failed\n")) :=
  have h := core_error_exits_with_status_one failingEnv
    (mkContext "db" "^x" "3s" "" hostnameDefault 20)
    (mkContext "db" "" "3s" "logs.papertrailapp.com:8888" "myhost" 20)
    (mkContext "db" "" "3s" "" hostnameDefault 20)
    (by decide) (by decide) (by decide) (by decide) (by decide) (by decide) (by decide)
  ⟨⟨h.1.1, h.1.2.1 ⟨"watch failed"⟩ rfl⟩,
    ⟨h.2.1.1, h.2.1.2.1 ⟨"feed failed"⟩ rfl⟩,
    ⟨h.2.2.1, h.2.2.2.1 ⟨"tail failed"⟩ rfl⟩⟩

/-- C7: the console sink writes exactly the text it is given, nothing before
and nothing after, and returns `nil`; after any sequence of dispatches the
output has grown by the concatenation of the texts, in dispatch order. -/
theorem console_sink_writes_raw_text (lines : String) (texts : List String) (w : World) :
    consoleSink lines w = .ok none { w with trace := w.trace ++ [.stdout lines] }
      ∧ stdoutOf (consoleSink lines w).trace = stdoutOf w.trace ++ lines
      ∧ (dispatchAll consoleSink texts w).returned = some ()
      ∧ stdoutOf (dispatchAll consoleSink texts w).trace
          = stdoutOf w.trace ++ String.join texts := by
  have h1 : consoleSink lines w = .ok none { w with trace := w.trace ++ [.stdout lines] } := rfl
  refine ⟨h1, ?_, ?_, ?_⟩
  · rw [h1]
    simp [Res.trace, Res.world, stdoutOf_append, stdoutOf]
  · rw [dispatchAll_consoleSink]
    rfl
  · rw [dispatchAll_consoleSink]
    simp [Res.trace, Res.world, stdoutOf_append, stdoutOf_map_stdout]

/-- C8: with an instance given, `tail` calls `rdstail.Tail` exactly once, with
the value of the lines flag as line count (0 stays 0), makes no stop channel
and starts no listener. -/
theorem tail_passes_line_count (env : Env) (c : Context)
    (h : c.getString "instance" ≠ "") (hn : isGoInt (c.getInt "lines")) :
    (∃ a, coreCalls (exec (tail env c)).trace = [.callTail a]
        ∧ a.numLines = c.getInt "lines"
        ∧ (c.getInt "lines" = 0 → a.numLines = 0))
      ∧ (exec (tail env c)).trace.filter Event.isMakeChan = []
      ∧ listenChans (exec (tail env c)).trace = [] := by
  have hl : (tailCall c).numLines = c.getInt "lines" := int64_of_isGoInt _ hn
  rw [tail_run]
  refine ⟨⟨tailCall c, ?_, hl, fun h0 => by rw [hl, h0]⟩, ?_, ?_⟩ <;>
    cases env.tailResult (tailCall c) <;>
    simp [h, Res.trace, Res.world, coreCalls, Event.isCore, Event.isMakeChan, listenChans]

/-- C8 at a concrete input: a request of 0 lines. -/
theorem tail_passes_line_count_witness :
    (mkContext "db" "" "3s" "" hostnameDefault 0).getString "instance" ≠ ""
      ∧ isGoInt ((mkContext "db" "" "3s" "" hostnameDefault 0).getInt "lines")
      ∧ (∃ a, coreCalls (exec (tail sampleEnv
            (mkContext "db" "" "3s" "" hostnameDefault 0))).trace = [.callTail a]
          ∧ a.numLines = (mkContext "db" "" "3s" "" hostnameDefault 0).getInt "lines"
          ∧ ((mkContext "db" "" "3s" "" hostnameDefault 0).getInt "lines" = 0 →
              a.numLines = 0))
      ∧ (exec (tail sampleEnv
            (mkContext "db" "" "3s" "" hostnameDefault 0))).trace.filter Event.isMakeChan = []
      ∧ listenChans (exec (tail sampleEnv
            (mkContext "db" "" "3s" "" hostnameDefault 0))).trace = [] :=
  ⟨by decide, by decide,
    tail_passes_line_count sampleEnv (mkContext "db" "" "3s" "" hostnameDefault 0)
      (by decide) (by decide)⟩

/-- C9 fails: two contexts that differ only in the prefix flag (`^x` and `^y`),
and `tail` passes different arguments to `rdstail.Tail` for them. -/
theorem tail_request_varies_with_pattern :
    Context.agreeOff "prefix" (mkContext "db" "^x" "3s" "" hostnameDefault 20)
        (mkContext "db" "^y" "3s" "" hostnameDefault 20)
      ∧ coreCalls (exec (tail sampleEnv (mkContext "db" "^x" "3s" "" hostnameDefault 20))).trace
          = [.callTail ⟨⟨"us-east-1", 10⟩, "db", 20, "^x"⟩]
      ∧ coreCalls (exec (tail sampleEnv (mkContext "db" "^y" "3s" "" hostnameDefault 20))).trace
          = [.callTail ⟨⟨"us-east-1", 10⟩, "db", 20, "^y"⟩]
      ∧ coreCalls (exec (tail sampleEnv (mkContext "db" "^x" "3s" "" hostnameDefault 20))).trace
          ≠ coreCalls (exec (tail sampleEnv
              (mkContext "db" "^y" "3s" "" hostnameDefault 20))).trace :=
  ⟨⟨rfl, fun k hk => by simp [mkContext, hk]⟩, by decide, by decide, by decide⟩

/-- C9, amended: for two contexts that differ only in the prefix flag, the
calls `tail` makes to `rdstail.Tail` agree in client, instance and line count
and carry each context's own prefix value as pattern; `tail` adds no
dependence on the pattern of its own: when `rdstail.Tail` writes the same
output and returns the same for the two calls, the two runs have the same
output, exit status and return value. -/
theorem tail_requests_differ_only_in_pattern (env : Env) (c1 c2 : Context)
    (hagree : Context.agreeOff "prefix" c1 c2) :
    (c1.getString "instance" ≠ "" →
        coreCalls (exec (tail env c1)).trace = [.callTail (tailCall c1)]
          ∧ coreCalls (exec (tail env c2)).trace = [.callTail (tailCall c2)])
      ∧ (tailCall c1).r = (tailCall c2).r
      ∧ (tailCall c1).db = (tailCall c2).db
      ∧ (tailCall c1).numLines = (tailCall c2).numLines
      ∧ (tailCall c1).prefixPattern = c1.getString "prefix"
      ∧ (tailCall c2).prefixPattern = c2.getString "prefix"
      ∧ (env.tailOutput (tailCall c1) = env.tailOutput (tailCall c2) →
          env.tailResult (tailCall c1) = env.tailResult (tailCall c2) →
          (exec (tail env c1)).exitCode = (exec (tail env c2)).exitCode
            ∧ (exec (tail env c1)).returned = (exec (tail env c2)).returned
            ∧ stdoutOf (exec (tail env c1)).trace = stdoutOf (exec (tail env c2)).trace) := by
  have hs : ∀ k, k ≠ "prefix" → c2.getString k = c1.getString k :=
    fun k hk => (hagree.2 k hk).symm
  have hi : ∀ k, c2.getInt k = c1.getInt k := fun k => by
    simp [Context.getInt, hagree.1]
  have hdb := hs "instance" (by decide)
  refine ⟨?_, ?_, ?_, ?_, rfl, rfl, ?_⟩
  · intro h
    have h2 : c2.getString "instance" ≠ "" := by rw [hdb]; exact h
    exact ⟨tail_coreCalls env c1 h, tail_coreCalls env c2 h2⟩
  · simp [tailCall, hs "region" (by decide), hi]
  · simp [tailCall, hdb]
  · simp [tailCall, hi]
  · intro hout hres
    rw [tail_run, tail_run, hdb, ← hres, ← hout]
    by_cases h : c1.getString "instance" = ""
    · simp [h]
    · cases env.tailResult (tailCall c1) <;>
        simp [h, Res.exitCode, Res.returned, Res.trace, Res.world, stdoutOf]

/-- C9, amended, at concrete inputs: patterns `^x` and `^y`, the core writing
and returning the same for both. -/
theorem tail_requests_differ_only_in_pattern_witness :
    Context.agreeOff "prefix" (mkContext "db" "^x" "3s" "" hostnameDefault 20)
        (mkContext "db" "^y" "3s" "" hostnameDefault 20)
      ∧ coreCalls (exec (tail sampleEnv (mkContext "db" "^x" "3s" "" hostnameDefault 20))).trace
          = [.callTail (tailCall (mkContext "db" "^x" "3s" "" hostnameDefault 20))]
      ∧ coreCalls (exec (tail sampleEnv (mkContext "db" "^y" "3s" "" hostnameDefault 20))).trace
          = [.callTail (tailCall (mkContext "db" "^y" "3s" "" hostnameDefault 20))]
      ∧ (tailCall (mkContext "db" "^x" "3s" "" hostnameDefault 20)).r
          = (tailCall (mkContext "db" "^y" "3s" "" hostnameDefault 20)).r
      ∧ (tailCall (mkContext "db" "^x" "3s" "" hostnameDefault 20)).db
          = (tailCall (mkContext "db" "^y" "3s" "" hostnameDefault 20)).db
      ∧ (tailCall (mkContext "db" "^x" "3s" "" hostnameDefault 20)).numLines
          = (tailCall (mkContext "db" "^y" "3s" "" hostnameDefault 20)).numLines
      ∧ (tailCall (mkContext "db" "^x" "3s" "" hostnameDefault 20)).prefixPattern
          = (mkContext "db" "^x" "3s" "" hostnameDefault 20).getString "prefix"
      ∧ (tailCall (mkContext "db" "^y" "3s" "" hostnameDefault 20)).prefixPattern
          = (mkContext "db" "^y" "3s" "" hostnameDefault 20).getString "prefix"
      ∧ (exec (tail sampleEnv (mkContext "db" "^x" "3s" "" hostnameDefault 20))).exitCode
          = (exec (tail sampleEnv (mkContext "db" "^y" "3s" "" hostnameDefault 20))).exitCode
      ∧ (exec (tail sampleEnv (mkContext "db" "^x" "3s" "" hostnameDefault 20))).returned
          = (exec (tail sampleEnv (mkContext "db" "^y" "3s" "" hostnameDefault 20))).returned
      ∧ stdoutOf (exec (tail sampleEnv
            (mkContext "db" "^x" "3s" "" hostnameDefault 20))).trace
          = stdoutOf (exec (tail sampleEnv
            (mkContext "db" "^y" "3s" "" hostnameDefault 20))).trace :=
  have hagree : Context.agreeOff "prefix" (mkContext "db" "^x" "3s" "" hostnameDefault 20)
      (mkContext "db" "^y" "3s" "" hostnameDefault 20) :=
    ⟨rfl, fun k hk => by simp [mkContext, hk]⟩
  have h := tail_requests_differ_only_in_pattern sampleEnv
    (mkContext "db" "^x" "3s" "" hostnameDefault 20)
    (mkContext "db" "^y" "3s" "" hostnameDefault 20) hagree
  ⟨hagree, (h.1 (by decide)).1, (h.1 (by decide)).2, h.2.1, h.2.2.1, h.2.2.2.1, h.2.2.2.2.1,
    h.2.2.2.2.2.1, h.2.2.2.2.2.2 rfl rfl⟩

/-- C10: when validation passes, `watch` first writes the value of the prefix
flag and a line break, then makes the stop channel, starts the listener and
calls `rdstail.Watch`; so its output begins with that line, an empty line when
the flag is empty, and the texts the core dispatches come after it. -/
theorem watch_prints_pattern_line_first (env : Env) (c : Context)
    (h : c.getString "instance" ≠ "")
    (hr : (env.parseDuration (c.getString "rate")).2 = none) :
    ∃ rest,
      (exec (watch env c)).trace
          = .stdout (c.getString "prefix" ++ "\n") :: .makeChan 0 :: .goSignalListen 0
              :: .callWatch (watchCall env c)
              :: ((env.watchTexts (watchCall env c)).map Event.stdout ++ rest)
        ∧ stdoutOf (exec (watch env c)).trace
          = c.getString "prefix" ++ "\n" ++ String.join (env.watchTexts (watchCall env c))
              ++ stdoutOf rest
        ∧ (c.getString "prefix" = "" →
            stdoutOf (exec (watch env c)).trace
              = "\n" ++ String.join (env.watchTexts (watchCall env c)) ++ stdoutOf rest) := by
  have key : ∀ rest, (exec (watch env c)).trace
      = .stdout (c.getString "prefix" ++ "\n") :: .makeChan 0 :: .goSignalListen 0
          :: .callWatch (watchCall env c)
          :: ((env.watchTexts (watchCall env c)).map Event.stdout ++ rest) →
      stdoutOf (exec (watch env c)).trace
        = c.getString "prefix" ++ "\n" ++ String.join (env.watchTexts (watchCall env c))
            ++ stdoutOf rest := by
    intro rest ht
    rw [ht]
    simp [stdoutOf, stdoutOf_append, stdoutOf_map_stdout, String.append_assoc]
  have fin : ∀ rest, (exec (watch env c)).trace
      = .stdout (c.getString "prefix" ++ "\n") :: .makeChan 0 :: .goSignalListen 0
          :: .callWatch (watchCall env c)
          :: ((env.watchTexts (watchCall env c)).map Event.stdout ++ rest) →
      ∃ rest,
        (exec (watch env c)).trace
            = .stdout (c.getString "prefix" ++ "\n") :: .makeChan 0 :: .goSignalListen 0
                :: .callWatch (watchCall env c)
                :: ((env.watchTexts (watchCall env c)).map Event.stdout ++ rest)
          ∧ stdoutOf (exec (watch env c)).trace
            = c.getString "prefix" ++ "\n" ++ String.join (env.watchTexts (watchCall env c))
                ++ stdoutOf rest
          ∧ (c.getString "prefix" = "" →
              stdoutOf (exec (watch env c)).trace
                = "\n" ++ String.join (env.watchTexts (watchCall env c)) ++ stdoutOf rest) := by
    intro rest ht
    refine ⟨rest, ht, key rest ht, fun hp => ?_⟩
    rw [key rest ht, hp, String.empty_append]
  cases hw : env.watchResult (watchCall env c) with
  | none =>
    apply fin []
    rw [watch_run]
    simp [h, hr, hw, Res.trace, Res.world]
  | some e =>
    apply fin [.stdout (e.msg ++ "\n")]
    rw [watch_run]
    simp [h, hr, hw, Res.trace, Res.world]

/-- C10 at a concrete input: no pattern configured. -/
theorem watch_prints_pattern_line_first_witness :
    (mkContext "db" "" "3s" "" hostnameDefault 20).getString "instance" ≠ ""
      ∧ (sampleEnv.parseDuration
          ((mkContext "db" "" "3s" "" hostnameDefault 20).getString "rate")).2 = none
      ∧ ∃ rest,
        (exec (watch sampleEnv (mkContext "db" "" "3s" "" hostnameDefault 20))).trace
            = .stdout ((mkContext "db" "" "3s" "" hostnameDefault 20).getString "prefix" ++ "\n")
                :: .makeChan 0 :: .goSignalListen 0
                :: .callWatch (watchCall sampleEnv (mkContext "db" "" "3s" "" hostnameDefault 20))
                :: ((sampleEnv.watchTexts (watchCall sampleEnv
                      (mkContext "db" "" "3s" "" hostnameDefault 20))).map Event.stdout ++ rest)
          ∧ stdoutOf (exec (watch sampleEnv
                (mkContext "db" "" "3s" "" hostnameDefault 20))).trace
            = (mkContext "db" "" "3s" "" hostnameDefault 20).getString "prefix" ++ "\n"
                ++ String.join (sampleEnv.watchTexts (watchCall sampleEnv
                    (mkContext "db" "" "3s" "" hostnameDefault 20)))
                ++ stdoutOf rest
          ∧ ((mkContext "db" "" "3s" "" hostnameDefault 20).getString "prefix" = "" →
              stdoutOf (exec (watch sampleEnv
                  (mkContext "db" "" "3s" "" hostnameDefault 20))).trace
                = "\n" ++ String.join (sampleEnv.watchTexts (watchCall sampleEnv
                      (mkContext "db" "" "3s" "" hostnameDefault 20)))
                  ++ stdoutOf rest) :=
  ⟨by decide, by decide,
    watch_prints_pattern_line_first sampleEnv (mkContext "db" "" "3s" "" hostnameDefault 20)
      (by decide) (by decide)⟩

end Rdstail
